import Mathlib

/-!
Verification development for the clickfix-patterns repository.

The repository keeps a corpus of regex detection rules in YAML-like files and
checks them with two near-duplicate test runners plus a documentation
generator:
  - scripts/yaml_parser.py      : dependency-free line-oriented rule parser
  - scripts/test/run.py         : current test runner (check_format,
                                  compile_patterns, run_tests, test_pattern)
  - scripts/run_tests.py        : legacy test runner (its own parser, compile
                                  section and counting loops)
  - scripts/generate_docs.py    : documentation generator (its own parser copy)

This file shallowly embeds those components.  Python strings are modelled as
Lean `String` manipulated through helper functions that mirror the exact
Python `str` operations used by the source (`strip`, `startswith`,
`endswith`, `partition`, slicing, `join`, `replace`).  Python's `re` module
is modelled for the fragment of the regex language the development needs:
literal characters, escaped metacharacters, `.`, alternation `|`, groups
`(...)`, postfix `*`/`+`/`?`, and a leading global `(?i)` inline flag;
matching is defined with Brzozowski derivatives, `re.IGNORECASE` as ASCII
case folding and `re.DOTALL` as ". matches newline".  Sources outside this
fragment are modelled as failing to compile (a conservative restriction of
the engine; every theorem that depends on concrete matching stays inside the
fragment).
-/

/-! ## Python string primitives -/

/-- Python `str.strip()` whitespace set (ASCII fragment). -/
def wsChar (c : Char) : Bool :=
  c == ' ' || c == '\t' || c == '\n' || c == '\r' || c == '\x0b' || c == '\x0c'

/-- `str.strip()` on the underlying character list. -/
def pyStripList (cs : List Char) : List Char :=
  (((cs.dropWhile wsChar).reverse).dropWhile wsChar).reverse

/-- Python `s.strip()`. -/
def pyStrip (s : String) : String := ⟨pyStripList s.data⟩

/-- Python `s.startswith(pre)`. -/
def pyStartsWith (s pre : String) : Bool := pre.data.isPrefixOf s.data

/-- Python `s.endswith(suf)`. -/
def pyEndsWith (s suf : String) : Bool := suf.data.reverse.isPrefixOf s.data.reverse

/-- Python `":" in s`. -/
def pyContainsColon (s : String) : Bool := s.data.contains ':'

/-- Helper for `s.partition(":")`: characters before and after the first `:`.
If there is no colon the whole string is "before" and "after" is empty,
matching Python's `partition` (whose middle component the source discards). -/
def partCol : List Char → List Char × List Char
  | [] => ([], [])
  | c :: cs => if c == ':' then ([], cs) else
      let r := partCol cs
      (c :: r.1, r.2)

/-- Python `key, _, value = s.partition(":")` (key and value components). -/
def pyPartitionColon (s : String) : String × String :=
  let r := partCol s.data
  (⟨r.1⟩, ⟨r.2⟩)

/-- Python `s[n:]`. -/
def pyDrop (s : String) (n : Nat) : String := ⟨s.data.drop n⟩

/-- Python `s[:-1]`. -/
def pyDropLast (s : String) : String := ⟨s.data.dropLast⟩

/-- Python `s[:80]`. -/
def pyTake80 (s : String) : String := ⟨s.data.take 80⟩

/-- Python `sep.join(xs)`. -/
def pyJoin (sep : String) : List String → String
  | [] => ""
  | [x] => x
  | x :: xs => x ++ sep ++ pyJoin sep xs

/-- Python `s.replace('\\"', '"')` used when unquoting double-quoted
example list items (left-to-right, non-overlapping). -/
def unescapeDqList : List Char → List Char
  | '\\' :: '"' :: rest => '"' :: unescapeDqList rest
  | c :: rest => c :: unescapeDqList rest
  | [] => []

/-- String-level wrapper for `unescapeDqList`. -/
def unescapeDq (s : String) : String := ⟨unescapeDqList s.data⟩

/-! ## Regex fragment: flags and abstract syntax -/

/-- The two compile flags the runners pass to `re.compile`. -/
structure ReFlags where
  ignorecase : Bool
  dotall : Bool
deriving DecidableEq

/-- Regular-expression abstract syntax for the modelled fragment. -/
inductive Re where
  | emp
  | eps
  | ch (c : Char)
  | dot
  | alt (a b : Re)
  | cat (a b : Re)
  | star (a : Re)
deriving DecidableEq

/-- A compiled pattern, the observable content of a Python `re.Pattern`:
its program and the effective flags. -/
structure RePattern where
  re : Re
  flags : ReFlags
deriving DecidableEq

/-- ASCII lower-casing, modelling the case folding `re.IGNORECASE` performs
on the ASCII fragment. -/
def pyLower (c : Char) : Char :=
  if 'A' ≤ c && c ≤ 'Z' then Char.ofNat (c.toNat + 32) else c

/-- Whether a pattern character matches an input character, given the
case-insensitivity flag. -/
def charMatch (ci : Bool) (p d : Char) : Bool :=
  if ci then pyLower p == pyLower d else p == d

/-- Nullability: does the expression accept the empty string. -/
def nullable : Re → Bool
  | .emp => false
  | .eps => true
  | .ch _ => false
  | .dot => false
  | .alt a b => nullable a || nullable b
  | .cat a b => nullable a && nullable b
  | .star _ => true

/-- Brzozowski derivative with respect to one input character, under the
given flags (`dotall` decides whether `.` consumes a newline). -/
def reDeriv (fl : ReFlags) (r : Re) (d : Char) : Re :=
  match r with
  | .emp => .emp
  | .eps => .emp
  | .ch c => if charMatch fl.ignorecase c d then .eps else .emp
  | .dot => if fl.dotall || d != '\n' then .eps else .emp
  | .alt a b => .alt (reDeriv fl a d) (reDeriv fl b d)
  | .cat a b =>
      if nullable a then .alt (.cat (reDeriv fl a d) b) (reDeriv fl b d)
      else .cat (reDeriv fl a d) b
  | .star a => .cat (reDeriv fl a d) (.star a)

/-- Does the expression match some prefix of the input, i.e. does a
`re` match succeed when anchored at this position. -/
def matchesHere (fl : ReFlags) : Re → List Char → Bool
  | r, [] => nullable r
  | r, d :: ds => nullable r || matchesHere fl (reDeriv fl r d) ds

/-- `re.Pattern.search` on a character list: try every start position. -/
def reSearchList (fl : ReFlags) (r : Re) : List Char → Bool
  | [] => matchesHere fl r []
  | c :: cs => matchesHere fl r (c :: cs) || reSearchList fl r cs

/-- Python `p.search(s) is not None` for a compiled pattern of the
modelled fragment. -/
def reSearch (p : RePattern) (s : String) : Bool :=
  reSearchList p.flags p.re s.data

/-! ## Regex fragment: the `re.compile` model

A fuel-indexed recursive-descent reading of the fragment grammar
`alt := cat (| cat)* ; cat := rep* ; rep := atom (* | + | ?)? ;
atom := literal | escaped metacharacter | . | ( alt )`.
All concrete uses receive ample fuel. -/

/-- Characters that are not plain literals in the fragment. -/
def metaChars : List Char :=
  ['.', '(', ')', '|', '*', '+', '?', '[', ']', '\\', '^', '$', '\x7b', '\x7d']

mutual

/-- Parse an alternation. -/
def parseAlt : Nat → List Char → Option (Re × List Char)
  | 0, _ => none
  | f + 1, cs =>
    match parseCat f cs with
    | some (r, '|' :: rest) =>
      match parseAlt f rest with
      | some (r2, rest2) => some (.alt r r2, rest2)
      | none => none
    | some (r, rest) => some (r, rest)
    | none => none

/-- Parse a (possibly empty) concatenation. -/
def parseCat : Nat → List Char → Option (Re × List Char)
  | 0, _ => none
  | f + 1, cs =>
    match parseRep f cs with
    | some (r, rest) => parseCatLoop f r rest
    | none => some (.eps, cs)

/-- Extend a concatenation with further repeated atoms. -/
def parseCatLoop : Nat → Re → List Char → Option (Re × List Char)
  | 0, acc, cs => some (acc, cs)
  | f + 1, acc, cs =>
    match parseRep f cs with
    | some (r, rest) => parseCatLoop f (.cat acc r) rest
    | none => some (acc, cs)

/-- Parse an atom with an optional postfix repetition operator. -/
def parseRep : Nat → List Char → Option (Re × List Char)
  | 0, _ => none
  | f + 1, cs =>
    match parseAtom f cs with
    | some (r, '*' :: rest) => some (.star r, rest)
    | some (r, '+' :: rest) => some (.cat r (.star r), rest)
    | some (r, '?' :: rest) => some (.alt r .eps, rest)
    | some (r, rest) => some (r, rest)
    | none => none

/-- Parse one atom. -/
def parseAtom : Nat → List Char → Option (Re × List Char)
  | 0, _ => none
  | f + 1, cs =>
    match cs with
    | [] => none
    | '(' :: rest =>
      match parseAlt f rest with
      | some (r, ')' :: rest2) => some (r, rest2)
      | _ => none
    | '.' :: rest => some (.dot, rest)
    | '\\' :: c :: rest =>
      if metaChars.contains c then some (.ch c, rest) else none
    | c :: rest =>
      if metaChars.contains c then none else some (.ch c, rest)

end

/-- Parse a whole pattern body; the input must be consumed entirely. -/
def parseReAst (cs : List Char) : Option Re :=
  match parseAlt (cs.length * 4 + 16) cs with
  | some (r, []) => some r
  | _ => none

/-- Model of `re.compile(src, flags)` on the fragment.  A leading global
`(?i)` directive switches on case-insensitivity exactly as the inline flag
does in Python; `none` models `re.error` (which, for the model, also covers
constructs outside the fragment). -/
def re_compile (src : String) (fl : ReFlags) : Option RePattern :=
  if pyStartsWith src "(?i)" then
    match parseReAst (pyDrop src 4).data with
    | some r => some ⟨r, ⟨fl.ignorecase || true, fl.dotall⟩⟩
    | none => none
  else
    match parseReAst src.data with
    | some r => some ⟨r, ⟨fl.ignorecase || false, fl.dotall⟩⟩
    | none => none

/-! ## Rule documents as seen by the runners

`scripts/test/run.py` reads rule files with `yaml.safe_load` and accesses the
fields `pattern`, `patterns` (list of `name`/`pattern` mappings), `malicious`
and `benign`; `scripts/run_tests.py` produces the same shape from its own
parser.  A missing or null field and an empty one are indistinguishable
through the truthiness tests the source performs, so the document is
modelled with empty defaults. -/

/-- One entry of the `patterns` list. -/
structure SubPat where
  name : String
  pattern : String
deriving DecidableEq

/-- The fields of a rule document that the compilers and evaluators use. -/
structure RuleDoc where
  pattern : String
  patterns : List SubPat
  malicious : List String
  benign : List String
deriving DecidableEq

/-- Compilation failure taxonomy.  The source raises `ValueError` with a
message; the constructors record which message:
`missingPattern` is `ValueError("Missing pattern")`,
`malformedFlagScope n` is the `check_format` message (prefixed by the
sub-pattern name, empty for the single-pattern form), and
`invalidRegex n` stands for a propagated `re.error`. -/
inductive CompileError where
  | missingPattern
  | malformedFlagScope (name : String)
  | invalidRegex (name : String)
deriving DecidableEq

/-! ## scripts/test/run.py -/

/-- The Boolean condition of `check_format` in scripts/test/run.py:
the trimmed pattern starts with `(?i)` but is not of the shape
`(?i)(` ... `)`. -/
def check_format_err (pattern : String) : Bool :=
  let p := pyStrip pattern
  pyStartsWith p "(?i)" && !(pyStartsWith p "(?i)(" && pyEndsWith p ")")

/-- The `check_format` error message text from scripts/test/run.py. -/
def flagScopeMsg : String :=
  "Pattern with (?i) must use (?i)(<pattern>) format to ensure inline flags apply to all branches and top-level alternation is not misparsed by some regex engines"

/-- `check_format` from scripts/test/run.py: error message or `none`. -/
def check_format (pattern : String) : Option String :=
  if check_format_err pattern then some flagScopeMsg else none

/-- The `patterns`-list loop of `compile_patterns` in scripts/test/run.py:
strip each sub-pattern, run `check_format`, compile with `re.DOTALL`. -/
def compileSubsRun : List SubPat → Except CompileError (List RePattern)
  | [] => .ok []
  | p :: rest =>
    if check_format_err (pyStrip p.pattern) then .error (.malformedFlagScope p.name)
    else
      match re_compile (pyStrip p.pattern) ⟨false, true⟩ with
      | none => .error (.invalidRegex p.name)
      | some rp =>
        match compileSubsRun rest with
        | .error e => .error e
        | .ok rs => .ok (rp :: rs)

/-- The single-pattern branch of `compile_patterns` in scripts/test/run.py. -/
def compileSingleRun (pattern : String) : Except CompileError (List RePattern) :=
  if check_format_err (pyStrip pattern) then .error (.malformedFlagScope "")
  else
    match re_compile (pyStrip pattern) ⟨false, true⟩ with
    | none => .error (.invalidRegex "")
    | some rp => .ok [rp]

/-- `compile_patterns` from scripts/test/run.py.  `data.get("patterns")` and
`data.get("pattern")` are Python truthiness tests: a non-empty list,
respectively a non-empty string. -/
def compile_patterns (data : RuleDoc) : Except CompileError (List RePattern) :=
  if data.patterns ≠ [] then compileSubsRun data.patterns
  else if data.pattern ≠ "" then compileSingleRun data.pattern
  else .error .missingPattern

/-- `run_tests` from scripts/test/run.py: collect false-negative messages
over the malicious list, then false-positive messages over the benign
list, skipping lines whose `strip()` is empty. -/
def run_tests (patterns : List RePattern) (malicious benign : List String) :
    List String :=
  malicious.filterMap (fun line =>
    if pyStrip line != "" && !(patterns.any (fun p => reSearch p line)) then
      some ("FALSE NEGATIVE - Should block: " ++ pyTake80 line)
    else none)
  ++ benign.filterMap (fun line =>
    if pyStrip line != "" && patterns.any (fun p => reSearch p line) then
      some ("FALSE POSITIVE - Should allow: " ++ pyTake80 line)
    else none)

/-- Rendering of a compile error, modelling `str(e)` in the `except` branch
of `test_pattern` (the exact `re.error` text is an engine detail and is
modelled by a fixed string). -/
def errMsg : CompileError → String
  | .missingPattern => "Missing pattern"
  | .malformedFlagScope n => if n == "" then flagScopeMsg else n ++ ": " ++ flagScopeMsg
  | .invalidRegex n => if n == "" then "invalid regex" else n ++ ": invalid regex"

/-- `test_pattern` from scripts/test/run.py, from the point where the
document is available: returns `(passed, failed, failure messages)` with
`total = len(malicious) + len(benign)` and `passed = total - len(failures)`. -/
def test_pattern (name : String) (d : RuleDoc) : Nat × Nat × List String :=
  match compile_patterns d with
  | .error e => (0, 1, [name ++ ": " ++ errMsg e])
  | .ok ps =>
    let failures := (run_tests ps d.malicious d.benign).map
      (fun f => name ++ ": " ++ f)
    let total := d.malicious.length + d.benign.length
    (total - failures.length, failures.length, failures)

/-! ## scripts/run_tests.py (legacy runner): compile section and counters -/

/-- The `patterns`-list compile loop of `test_pattern` in
scripts/run_tests.py: no `strip`, no `check_format`, flags
`re.IGNORECASE | re.DOTALL`. -/
def legacyCompileSubs : List SubPat → Except CompileError (List RePattern)
  | [] => .ok []
  | p :: rest =>
    match re_compile p.pattern ⟨true, true⟩ with
    | none => .error (.invalidRegex p.name)
    | some rp =>
      match legacyCompileSubs rest with
      | .error e => .error e
      | .ok rs => .ok (rp :: rs)

/-- The pattern-selection and compile section of `test_pattern` in
scripts/run_tests.py (lines 166-187). -/
def legacy_compile_patterns (d : RuleDoc) : Except CompileError (List RePattern) :=
  if d.patterns ≠ [] then legacyCompileSubs d.patterns
  else if d.pattern ≠ "" then
    match re_compile d.pattern ⟨true, true⟩ with
    | none => .error (.invalidRegex "")
    | some rp => .ok [rp]
  else .error .missingPattern

/-- Kind tag of a recorded failure. -/
inductive FailKind where
  | falseNegative
  | falsePositive
deriving DecidableEq

/-- The counters `test_pattern` in scripts/run_tests.py accumulates over
the example loops.  A failure is recorded with its kind and the 80-character
preview of the line (the surrounding ANSI-colored message text is
presentation and is not modelled). -/
structure LegacyCounts where
  totalTests : Nat
  passedTests : Nat
  failedTests : Nat
  failures : List (FailKind × String)
deriving DecidableEq

/-- The malicious and benign loops of `test_pattern` in scripts/run_tests.py
(lines 196-234): skip blank lines, otherwise count the test and classify it
by whether any compiled pattern's `search` matches. -/
def legacy_eval (ps : List RePattern) (malicious benign : List String) :
    LegacyCounts :=
  let afterMal := malicious.foldl (fun acc line =>
    if pyStrip line == "" then acc
    else if ps.any (fun p => reSearch p line) then
      { acc with totalTests := acc.totalTests + 1,
                 passedTests := acc.passedTests + 1 }
    else
      { acc with totalTests := acc.totalTests + 1,
                 failedTests := acc.failedTests + 1,
                 failures := acc.failures ++ [(.falseNegative, pyTake80 line)] })
    ⟨0, 0, 0, []⟩
  benign.foldl (fun acc line =>
    if pyStrip line == "" then acc
    else if ps.any (fun p => reSearch p line) then
      { acc with totalTests := acc.totalTests + 1,
                 failedTests := acc.failedTests + 1,
                 failures := acc.failures ++ [(.falsePositive, pyTake80 line)] }
    else
      { acc with totalTests := acc.totalTests + 1,
                 passedTests := acc.passedTests + 1 })
    afterMal

/-! ## scripts/yaml_parser.py: the rule-document model

`parse_yaml_pattern` builds a Python dict initialised with seven keys and
only ever updates them; the dict is modelled as an association list of
string keys and values that are either strings or lists, exactly as the
source manipulates it. -/

/-- An element of one of the dict's list values: an example string
(`malicious`/`benign`) or a sub-pattern record (`patterns`). -/
inductive Item where
  | str (s : String)
  | record (fields : List (String × String))
deriving DecidableEq

/-- A dict value: a string or a list. -/
inductive Val where
  | str (s : String)
  | list (xs : List Item)
deriving DecidableEq

/-- The parser's document dictionary. -/
abbrev RuleData := List (String × Val)

/-- The dict literal `pattern_data` is initialised with. -/
def initData : RuleData :=
  [("name", .str ""), ("severity", .str ""), ("description", .str ""),
   ("pattern", .str ""), ("patterns", .list []), ("malicious", .list []),
   ("benign", .list [])]

/-- Convenient constructor for the dictionary shape the parser maintains. -/
def mkData (n sv ds pt : String) (ps ms bs : List Item) : RuleData :=
  [("name", .str n), ("severity", .str sv), ("description", .str ds),
   ("pattern", .str pt), ("patterns", .list ps), ("malicious", .list ms),
   ("benign", .list bs)]

/-- Python `d[k] = v` on a dict: update in place, insert at the end if the
key is absent (the parser only ever writes existing keys). -/
def setKey : RuleData → String → Val → RuleData
  | [], k, v => [(k, v)]
  | (k', v') :: rest, k, v =>
    if k' == k then (k, v) :: rest else (k', v') :: setKey rest k v

/-- Python `d.get(k)` / `d[k]` lookup. -/
def getVal : RuleData → String → Option Val
  | [], _ => none
  | (k', v') :: rest, k => if k' == k then some v' else getVal rest k

/-- Python `d[k].append(it)` where `d[k]` is a list.  At every call site the
key holds a list, so the fall-through arms (absent key or string value,
which would raise in Python) leave the dict unchanged. -/
def appendItem (d : RuleData) (k : String) (it : Item) : RuleData :=
  match getVal d k with
  | some (.list xs) => setKey d k (.list (xs ++ [it]))
  | _ => d

/-- Python `cp[k] = v` on the in-progress sub-pattern record. -/
def setField : List (String × String) → String → String → List (String × String)
  | [], k, v => [(k, v)]
  | (k', v') :: rest, k, v =>
    if k' == k then (k, v) :: rest else (k', v') :: setField rest k v

/-- Truthiness of `current_section` (Python: `None` and the empty string
are falsy). -/
def optTruthy : Option String → Bool
  | none => false
  | some s => s != ""

/-- Truthiness of `current_pattern` (Python: `None` and the empty dict are
falsy). -/
def cpTruthy : Option (List (String × String)) → Bool
  | none => false
  | some cp => !cp.isEmpty

/-- The parser's mutable state: the dict under construction plus
`current_section`, `multiline_value`, `current_pattern`,
`in_patterns_list` and `in_test_list`. -/
structure PState where
  data : RuleData
  currentSection : Option String
  multilineValue : List String
  currentPattern : Option (List (String × String))
  inPatternsList : Bool
  inTestList : Bool
deriving DecidableEq

/-- The parser's initial state. -/
def initState : PState := ⟨initData, none, [], none, false, false⟩

/-- The flush assignment for a buffered `pattern` value: a single buffered
line is kept as-is, several lines are newline-joined and stripped
(`multiline_value[0] if len(multiline_value) == 1 else
"\n".join(multiline_value).strip()`). -/
def joinPattern (mv : List String) : String :=
  match mv with
  | [v] => v
  | _ => pyStrip (pyJoin "\n" mv)

/-- The flush block that precedes the `malicious:`/`benign:` headers and
every top-level key line (yaml_parser.py lines 37-46 and 83-92): if a
multi-line value is pending and a section is active, assign it —
newline-joined for `pattern` outside a patterns list, space-joined and
stripped for `description` — and clear the buffer. -/
def flushMid (st : PState) : PState :=
  if st.multilineValue ≠ [] ∧ optTruthy st.currentSection then
    if st.currentSection == some "pattern" && !st.inPatternsList then
      { st with data := setKey st.data "pattern" (.str (joinPattern st.multilineValue)),
                multilineValue := [] }
    else if st.currentSection == some "description" then
      { st with data := setKey st.data "description"
                  (.str (pyStrip (pyJoin " " st.multilineValue))),
                multilineValue := [] }
    else { st with multilineValue := [] }
  else st

/-- The end-of-input flush (yaml_parser.py lines 130-138).  Unlike the
mid-stream flush its `pattern` guard does not test `in_patterns_list`,
and it does not clear the buffer. -/
def flushEnd (st : PState) : PState :=
  if st.multilineValue ≠ [] ∧ optTruthy st.currentSection then
    if st.currentSection == some "pattern" then
      { st with data := setKey st.data "pattern" (.str (joinPattern st.multilineValue)) }
    else if st.currentSection == some "description" then
      { st with data := setKey st.data "description"
                  (.str (pyStrip (pyJoin " " st.multilineValue))) }
    else st
  else st

/-- `if current_pattern: pattern_data["patterns"].append(current_pattern)`. -/
def closeCp (d : RuleData) (cp? : Option (List (String × String))) : RuleData :=
  match cp? with
  | some cp => if cp.isEmpty then d else appendItem d "patterns" (.record cp)
  | none => d

/-- One iteration of the parser loop of `parse_yaml_pattern` in
scripts/yaml_parser.py, translated branch for branch in source order. -/
def step (st : PState) (line : String) : PState :=
  let stripped := pyStrip line
  -- skip blank lines
  if stripped == "" then st
  -- handle test sections
  else if stripped == "malicious:" || stripped == "benign:" then
    let st1 := flushMid st
    { st1 with currentSection := some (pyDropLast stripped),
               inTestList := true, inPatternsList := false }
  -- handle list items in test sections
  else if pyStartsWith stripped "- " && st.inTestList &&
          (st.currentSection == some "malicious" ||
           st.currentSection == some "benign") then
    let item := pyStrip (pyDrop stripped 2)
    let item :=
      if pyStartsWith item "\"" && pyEndsWith item "\"" then
        unescapeDq (pyDropLast (pyDrop item 1))
      else if pyStartsWith item "'" && pyEndsWith item "'" then
        pyDropLast (pyDrop item 1)
      else item
    { st with data := appendItem st.data (st.currentSection.getD "") (.str item) }
  -- handle list items in patterns
  else if pyStartsWith stripped "- " && st.currentSection == some "patterns" then
    let item := pyStrip (pyDrop stripped 2)
    if pyStartsWith item "name:" then
      { st with data := closeCp st.data st.currentPattern,
                currentPattern := some
                  [("name", pyStrip (pyDrop item 5)), ("pattern", ""),
                   ("description", "")],
                inPatternsList := true, inTestList := false }
    else st
  -- handle key-value pairs
  else if pyContainsColon line && !pyStartsWith line "  " then
    let st1 := flushMid st
    let kv := pyPartitionColon line
    let key := pyStrip kv.1
    let value := pyStrip kv.2
    if key == "name" || key == "severity" then
      { st1 with data := setKey st1.data key (.str value), currentSection := none,
                 inPatternsList := false, inTestList := false }
    else if key == "description" || key == "pattern" then
      { st1 with currentSection := some key,
                 multilineValue :=
                   if value != "" && value != "|" && value != ">" then [value]
                   else st1.multilineValue }
    else if key == "patterns" then
      { st1 with currentSection := some "patterns", inPatternsList := true }
    else st1
  -- handle indented content for patterns list
  else if pyStartsWith line "  " && st.inPatternsList && cpTruthy st.currentPattern then
    match st.currentPattern with
    | some cp =>
      let keyVal := pyStrip line
      if pyContainsColon keyVal then
        let kv := pyPartitionColon keyVal
        let key := pyStrip kv.1
        let value := pyStrip kv.2
        if key == "pattern" then
          { st with currentPattern := some (setField cp "pattern" value) }
        else if key == "description" then
          { st with currentPattern := some (setField cp "description" value) }
        else st
      else st
    | none => st
  -- handle multiline content
  else if (st.currentSection == some "description" ||
           st.currentSection == some "pattern") &&
          pyStartsWith line " " && !st.inPatternsList then
    { st with multilineValue := st.multilineValue ++ [pyStrip line] }
  else st

/-- `parse_yaml_pattern` from scripts/yaml_parser.py over the file's lines
(`content.splitlines()`): fold the loop body, flush the last multi-line
value, close the last open sub-pattern record. -/
def parse_yaml_pattern (lines : List String) : RuleData :=
  let st := flushEnd (lines.foldl step initState)
  closeCp st.data st.currentPattern

/-! ## scripts/run_tests.py: its own `parse_yaml_pattern`

The legacy runner carries a near-duplicate parser (lines 34-143) with the
same dict shape but different flush logic: its mid-stream flush assigns
only `pattern` (a pending `description` accumulator is discarded), its
end-of-input flush newline-joins the accumulator into whatever section is
current, list items are dispatched before any section check, only
double-quoted items are unquoted, and `malicious`/`benign` are ordinary
keys.  It has no `in_test_list` flag; the corresponding `PState` field is
simply never touched. -/

/-- The mid-stream flush of `parse_yaml_pattern` in scripts/run_tests.py
(lines 92-96): only a pending `pattern` value outside a patterns list is
assigned (newline-joined and stripped); anything else pending is dropped.
The buffer is cleared either way. -/
def legacy_flushMid (st : PState) : PState :=
  if st.multilineValue ≠ [] ∧ optTruthy st.currentSection then
    if st.currentSection == some "pattern" && !st.inPatternsList then
      { st with data := setKey st.data "pattern"
                  (.str (pyStrip (pyJoin "\n" st.multilineValue))),
                multilineValue := [] }
    else { st with multilineValue := [] }
  else st

/-- The end-of-input flush of `parse_yaml_pattern` in scripts/run_tests.py
(lines 135-137): `pattern_data[current_section] = "\n".join(...).strip()`
for whatever section is current, with no `in_patterns_list` guard. -/
def legacy_flushEnd (st : PState) : PState :=
  if st.multilineValue ≠ [] ∧ optTruthy st.currentSection then
    { st with data := setKey st.data (st.currentSection.getD "")
                (.str (pyStrip (pyJoin "\n" st.multilineValue))) }
  else st

/-- One iteration of the parser loop of `parse_yaml_pattern` in
scripts/run_tests.py, translated branch for branch in source order. -/
def legacy_step (st : PState) (line : String) : PState :=
  let stripped := pyStrip line
  -- skip empty lines
  if stripped == "" then st
  -- handle list items
  else if pyStartsWith stripped "- " then
    let item := pyStrip (pyDrop stripped 2)
    if st.currentSection == some "patterns" then
      if pyStartsWith item "name:" then
        { st with data := closeCp st.data st.currentPattern,
                  currentPattern := some
                    [("name", pyStrip (pyDrop item 5)), ("pattern", ""),
                     ("description", "")],
                  inPatternsList := true }
      else st
    else
      let item :=
        if pyStartsWith item "\"" && pyEndsWith item "\"" then
          unescapeDq (pyDropLast (pyDrop item 1))
        else item
      if st.currentSection == some "malicious" then
        { st with data := appendItem st.data "malicious" (.str item) }
      else if st.currentSection == some "benign" then
        { st with data := appendItem st.data "benign" (.str item) }
      else st
  -- handle key-value pairs
  else if pyContainsColon line && !pyStartsWith line "  " then
    let st1 := legacy_flushMid st
    let kv := pyPartitionColon line
    let key := pyStrip kv.1
    let value := pyStrip kv.2
    if key == "name" || key == "severity" then
      { st1 with data := setKey st1.data key (.str value), currentSection := none,
                 inPatternsList := false }
    else if key == "description" || key == "pattern" then
      { st1 with currentSection := some key,
                 multilineValue :=
                   if value != "" && value != "|" && value != ">" then [value]
                   else st1.multilineValue }
    else if key == "patterns" then
      { st1 with currentSection := some "patterns", inPatternsList := true }
    else if key == "malicious" || key == "benign" then
      { st1 with currentSection := some key, inPatternsList := false }
    else st1
  -- handle indented content for patterns list
  else if pyStartsWith line "  " && st.inPatternsList && cpTruthy st.currentPattern then
    match st.currentPattern with
    | some cp =>
      let keyVal := pyStrip line
      if pyContainsColon keyVal then
        let kv := pyPartitionColon keyVal
        let key := pyStrip kv.1
        let value := pyStrip kv.2
        if key == "pattern" then
          { st with currentPattern := some (setField cp "pattern" value) }
        else if key == "description" then
          { st with currentPattern := some (setField cp "description" value) }
        else st
      else st
    | none => st
  -- handle multiline content
  else if (st.currentSection == some "description" ||
           st.currentSection == some "pattern") &&
          pyStartsWith line " " && !st.inPatternsList then
    { st with multilineValue := st.multilineValue ++ [pyStrip line] }
  else st

/-- `parse_yaml_pattern` from scripts/run_tests.py over the file's lines. -/
def legacy_parse_yaml_pattern (lines : List String) : RuleData :=
  let st := legacy_flushEnd (lines.foldl legacy_step initState)
  closeCp st.data st.currentPattern

/-! ## Shape predicates used by the statements -/

/-- A sub-pattern record with exactly the fields `name`, `pattern` and
`description`, each holding a string. -/
def RecShape (cp : List (String × String)) : Prop :=
  ∃ a b c, cp = [("name", a), ("pattern", b), ("description", c)]

/-- A document dictionary with exactly the seven fields the parser
initialises, string-valued where it stores strings, list-valued where it
stores lists, every example a string and every `patterns` entry a
well-shaped record. -/
def DocShape (d : RuleData) : Prop :=
  ∃ n sv ds pt : String, ∃ ps : List (List (String × String)),
    ∃ ms bs : List String,
    d = mkData n sv ds pt (ps.map Item.record) (ms.map Item.str) (bs.map Item.str)
    ∧ ∀ cp ∈ ps, RecShape cp

/-- The open sub-pattern record, if any, is well shaped. -/
def cpInv (o : Option (List (String × String))) : Prop :=
  o = none ∨ ∃ cp, o = some cp ∧ RecShape cp

/-- Invariant carried through the parser loop: the dict is well shaped and
the open sub-pattern record, if any, is well shaped. -/
def StShape (st : PState) : Prop :=
  DocShape st.data ∧ cpInv st.currentPattern

/-- A string that `strip()` leaves unchanged on both ends (its Python
`strip()` is itself). -/
def noOuterWs (s : String) : Prop :=
  s.data.dropWhile wsChar = s.data ∧ s.data.reverse.dropWhile wsChar = s.data.reverse

instance (s : String) : Decidable (noOuterWs s) := by
  unfold noOuterWs
  infer_instance

/-! ## Lemmas about the regex engine -/

/-- `search` succeeds iff an anchored match succeeds at some start offset. -/
theorem reSearchList_eq_true_iff (fl : ReFlags) (r : Re) :
    ∀ cs : List Char,
      reSearchList fl r cs = true ↔ ∃ i, matchesHere fl r (cs.drop i) = true := by
  intro cs
  induction cs with
  | nil =>
    constructor
    · intro h; exact ⟨0, h⟩
    · rintro ⟨i, h⟩; simpa [reSearchList] using h
  | cons c cs ih =>
    constructor
    · intro h
      rcases Bool.or_eq_true_iff.mp (by simpa [reSearchList] using h) with h1 | h2
      · exact ⟨0, h1⟩
      · obtain ⟨i, hi⟩ := ih.mp h2
        exact ⟨i + 1, by simpa using hi⟩
    · rintro ⟨i, hi⟩
      cases i with
      | zero => simp [reSearchList]; left; exact hi
      | succ j =>
        simp [reSearchList]
        right
        exact ih.mpr ⟨j, by simpa using hi⟩

/-- Under the case-insensitive flag, the derivative only depends on the
lower-cased input character. -/
theorem reDeriv_ci (r : Re) (c d : Char) (h : pyLower c = pyLower d) :
    reDeriv ⟨true, true⟩ r c = reDeriv ⟨true, true⟩ r d := by
  induction r with
  | emp => rfl
  | eps => rfl
  | ch p => simp [reDeriv, charMatch, h]
  | dot => simp [reDeriv]
  | alt a b iha ihb => simp [reDeriv, iha, ihb]
  | cat a b iha ihb => simp only [reDeriv, iha, ihb]
  | star a iha => simp [reDeriv, iha]

/-- Anchored matching under `IGNORECASE | DOTALL` is invariant under a
change of letter case of the input. -/
theorem matchesHere_ci :
    ∀ (cs ds : List Char) (r : Re), cs.map pyLower = ds.map pyLower →
      matchesHere ⟨true, true⟩ r cs = matchesHere ⟨true, true⟩ r ds := by
  intro cs
  induction cs with
  | nil =>
    intro ds r h
    cases ds with
    | nil => rfl
    | cons d ds => simp at h
  | cons c cs ih =>
    intro ds r h
    cases ds with
    | nil => simp at h
    | cons d ds =>
      simp only [List.map_cons, List.cons.injEq] at h
      simp only [matchesHere]
      rw [reDeriv_ci r c d h.1, ih ds _ h.2]

/-- Search under `IGNORECASE | DOTALL` is invariant under a change of
letter case of the input. -/
theorem reSearchList_ci :
    ∀ (cs ds : List Char) (r : Re), cs.map pyLower = ds.map pyLower →
      reSearchList ⟨true, true⟩ r cs = reSearchList ⟨true, true⟩ r ds := by
  intro cs
  induction cs with
  | nil =>
    intro ds r h
    cases ds with
    | nil => rfl
    | cons d ds => simp at h
  | cons c cs ih =>
    intro ds r h
    cases ds with
    | nil => simp at h
    | cons d ds =>
      simp only [List.map_cons, List.cons.injEq] at h
      simp only [reSearchList]
      rw [matchesHere_ci (c :: cs) (d :: ds) r (by simp [h.1, h.2]), ih ds _ h.2]

/-! ## Claim C1 -/

/-- Claim C1: a rule covers an example iff at least one of its compiled
matchers finds a match anywhere within the example text (a match anchored
at some start offset, i.e. unanchored substring search); every non-blank
malicious example that is not covered is recorded as a `FALSE NEGATIVE`
failure, and every non-blank benign example that is covered is recorded as
a `FALSE POSITIVE` failure, by `run_tests` in scripts/test/run.py. -/
theorem run_tests_covers_and_classifies
    (patterns : List RePattern) (malicious benign : List String) (line : String) :
    (patterns.any (fun p => reSearch p line) = true ↔
      ∃ p ∈ patterns, ∃ i, matchesHere p.flags p.re (line.data.drop i) = true)
    ∧ (line ∈ malicious → pyStrip line ≠ "" →
        patterns.any (fun p => reSearch p line) = false →
        ("FALSE NEGATIVE - Should block: " ++ pyTake80 line) ∈
          run_tests patterns malicious benign)
    ∧ (line ∈ benign → pyStrip line ≠ "" →
        patterns.any (fun p => reSearch p line) = true →
        ("FALSE POSITIVE - Should allow: " ++ pyTake80 line) ∈
          run_tests patterns malicious benign) := by
  refine ⟨?_, ?_, ?_⟩
  · constructor
    · intro h
      obtain ⟨p, hp, hs⟩ := List.any_eq_true.mp h
      exact ⟨p, hp, (reSearchList_eq_true_iff p.flags p.re line.data).mp hs⟩
    · rintro ⟨p, hp, i, hi⟩
      exact List.any_eq_true.mpr
        ⟨p, hp, (reSearchList_eq_true_iff p.flags p.re line.data).mpr ⟨i, hi⟩⟩
  · intro hmem hne hcov
    refine List.mem_append_left _ (List.mem_filterMap.mpr ⟨line, hmem, ?_⟩)
    simp [hcov, hne]
  · intro hmem hne hcov
    refine List.mem_append_right _ (List.mem_filterMap.mpr ⟨line, hmem, ?_⟩)
    simp [hcov, hne]

/-- Witness for C1 at a concrete rule and concrete examples. -/
theorem run_tests_covers_and_classifies_witness :
    ("FALSE NEGATIVE - Should block: " ++ pyTake80 "b") ∈
      run_tests [⟨.ch 'a', ⟨false, true⟩⟩] ["b"] ["xa"]
    ∧ ("FALSE POSITIVE - Should allow: " ++ pyTake80 "xa") ∈
      run_tests [⟨.ch 'a', ⟨false, true⟩⟩] ["b"] ["xa"] :=
  ⟨(run_tests_covers_and_classifies [⟨.ch 'a', ⟨false, true⟩⟩] ["b"] ["xa"] "b").2.1
      (by decide) (by decide) (by decide),
    (run_tests_covers_and_classifies [⟨.ch 'a', ⟨false, true⟩⟩] ["b"] ["xa"] "xa").2.2
      (by decide) (by decide) (by decide)⟩

/-! ## Claim C2 -/

/-- The flags `re_compile` stores: the requested flags, with
case-insensitivity also switched on by a leading inline `(?i)`. -/
theorem re_compile_flags (src : String) (fl : ReFlags) (rp : RePattern)
    (h : re_compile src fl = some rp) :
    rp.flags = ⟨fl.ignorecase || pyStartsWith src "(?i)", fl.dotall⟩ := by
  unfold re_compile at h
  cases hs : pyStartsWith src "(?i)" with
  | true =>
    rw [hs] at h
    simp only [if_true] at h
    cases heq : parseReAst (pyDrop src 4).data with
    | none => rw [heq] at h; cases h
    | some r =>
      rw [heq] at h
      simp only [Option.some.injEq] at h
      rw [← h]
  | false =>
    rw [hs] at h
    simp only [Bool.false_eq_true, if_false] at h
    cases heq : parseReAst src.data with
    | none => rw [heq] at h; cases h
    | some r =>
      rw [heq] at h
      simp only [Option.some.injEq] at h
      rw [← h]

/-- Every matcher produced by the sub-pattern loop of scripts/test/run.py
carries the `DOTALL` flag (and nothing forces `IGNORECASE`). -/
theorem compileSubsRun_dotall :
    ∀ (l : List SubPat) (ps : List RePattern),
      compileSubsRun l = .ok ps → ∀ p ∈ ps, p.flags.dotall = true := by
  intro l
  induction l with
  | nil =>
    intro ps h p hp
    simp only [compileSubsRun] at h
    cases h
    cases hp
  | cons q l ih =>
    intro ps h p hp
    simp only [compileSubsRun] at h
    split at h
    · cases h
    · rename_i hcf
      cases hre : re_compile (pyStrip q.pattern) ⟨false, true⟩ with
      | none => rw [hre] at h; cases h
      | some rp =>
        rw [hre] at h
        cases hrec : compileSubsRun l with
        | error e => rw [hrec] at h; cases h
        | ok rs =>
          rw [hrec] at h
          cases h
          rcases List.mem_cons.mp hp with h1 | h2
          · subst h1
            rw [re_compile_flags _ _ _ hre]
          · exact ih rs hrec p h2

/-- Every matcher produced by the sub-pattern loop of scripts/run_tests.py
carries `IGNORECASE | DOTALL`. -/
theorem legacyCompileSubs_flags :
    ∀ (l : List SubPat) (ps : List RePattern),
      legacyCompileSubs l = .ok ps → ∀ p ∈ ps, p.flags = ⟨true, true⟩ := by
  intro l
  induction l with
  | nil =>
    intro ps h p hp
    simp only [legacyCompileSubs] at h
    cases h
    cases hp
  | cons q l ih =>
    intro ps h p hp
    simp only [legacyCompileSubs] at h
    cases hre : re_compile q.pattern ⟨true, true⟩ with
    | none => rw [hre] at h; cases h
    | some rp =>
      rw [hre] at h
      cases hrec : legacyCompileSubs l with
      | error e => rw [hrec] at h; cases h
      | ok rs =>
        rw [hrec] at h
        cases h
        rcases List.mem_cons.mp hp with h1 | h2
        · subst h1
          rw [re_compile_flags _ _ _ hre]
          simp
        · exact ih rs hrec p h2

/-- Counterexample to claim C2 as stated: scripts/test/run.py compiles the
single pattern `a` with `re.DOTALL` only, and the resulting matcher is not
case-insensitive — it matches the example `a` but not the example `A`,
although the two differ only in letter case. -/
theorem compile_not_ci_counterexample :
    compile_patterns ⟨"a", [], [], []⟩ = .ok [⟨.ch 'a', ⟨false, true⟩⟩]
    ∧ reSearch ⟨.ch 'a', ⟨false, true⟩⟩ "a" = true
    ∧ reSearch ⟨.ch 'a', ⟨false, true⟩⟩ "A" = false :=
  ⟨rfl, by decide, by decide⟩

/-- Claim C2 amended: scripts/run_tests.py compiles every matcher with
`IGNORECASE | DOTALL`, and matching under those flags is invariant under a
change of letter case of the example; scripts/test/run.py compiles with
`DOTALL` only, so its matchers are case-insensitive only when the pattern
itself carries a leading inline `(?i)` directive. -/
theorem compile_flags_amended :
    (∀ (d : RuleDoc) (ps : List RePattern), legacy_compile_patterns d = .ok ps →
      ∀ p ∈ ps, p.flags = ⟨true, true⟩)
    ∧ (∀ (r : Re) (s t : String), s.data.map pyLower = t.data.map pyLower →
        reSearch ⟨r, ⟨true, true⟩⟩ s = reSearch ⟨r, ⟨true, true⟩⟩ t)
    ∧ (∀ (src : String) (fl : ReFlags) (rp : RePattern), re_compile src fl = some rp →
        rp.flags = ⟨fl.ignorecase || pyStartsWith src "(?i)", fl.dotall⟩)
    ∧ (∀ (d : RuleDoc) (ps : List RePattern), compile_patterns d = .ok ps →
        ∀ p ∈ ps, p.flags.dotall = true) := by
  refine ⟨?_, ?_, re_compile_flags, ?_⟩
  · intro d ps h p hp
    unfold legacy_compile_patterns at h
    split at h
    · exact legacyCompileSubs_flags d.patterns ps h p hp
    · split at h
      · cases hre : re_compile d.pattern ⟨true, true⟩ with
        | none => rw [hre] at h; cases h
        | some rp =>
          rw [hre] at h
          cases h
          rcases List.mem_cons.mp hp with h1 | h2
          · subst h1
            rw [re_compile_flags _ _ _ hre]
            simp
          · cases h2
      · cases h
  · intro r s t h
    exact reSearchList_ci s.data t.data r h
  · intro d ps h p hp
    unfold compile_patterns at h
    split at h
    · exact compileSubsRun_dotall d.patterns ps h p hp
    · split at h
      · unfold compileSingleRun at h
        split at h
        · cases h
        · cases hre : re_compile (pyStrip d.pattern) ⟨false, true⟩ with
          | none => rw [hre] at h; cases h
          | some rp =>
            rw [hre] at h
            cases h
            rcases List.mem_cons.mp hp with h1 | h2
            · subst h1
              rw [re_compile_flags _ _ _ hre]
            · cases h2
      · cases h

/-- Witness for the amended C2 at a concrete document, pattern and example
pair differing only in case. -/
theorem compile_flags_amended_witness :
    (∀ p ∈ [(⟨.ch 'a', ⟨true, true⟩⟩ : RePattern)], p.flags = ⟨true, true⟩)
    ∧ reSearch ⟨.ch 'a', ⟨true, true⟩⟩ "A" = reSearch ⟨.ch 'a', ⟨true, true⟩⟩ "a" :=
  ⟨compile_flags_amended.1 ⟨"a", [], [], []⟩ [⟨.ch 'a', ⟨true, true⟩⟩] rfl,
    compile_flags_amended.2.1 (.ch 'a') "A" "a" (by decide)⟩

/-! ## Claim C3 -/

/-- The sub-pattern loop of scripts/test/run.py never produces the
"Missing pattern" error. -/
theorem compileSubsRun_ne_missing :
    ∀ l : List SubPat, compileSubsRun l ≠ .error .missingPattern := by
  intro l
  induction l with
  | nil => simp [compileSubsRun]
  | cons q l ih =>
    intro h
    simp only [compileSubsRun] at h
    split at h
    · cases h
    · cases hre : re_compile (pyStrip q.pattern) ⟨false, true⟩ with
      | none => rw [hre] at h; cases h
      | some rp =>
        rw [hre] at h
        cases hrec : compileSubsRun l with
        | error e => rw [hrec] at h; cases h; exact ih hrec
        | ok rs => rw [hrec] at h; cases h

/-- The sub-pattern loop of scripts/run_tests.py never produces the
"Missing pattern" error. -/
theorem legacyCompileSubs_ne_missing :
    ∀ l : List SubPat, legacyCompileSubs l ≠ .error .missingPattern := by
  intro l
  induction l with
  | nil => simp [legacyCompileSubs]
  | cons q l ih =>
    intro h
    simp only [legacyCompileSubs] at h
    cases hre : re_compile q.pattern ⟨true, true⟩ with
    | none => rw [hre] at h; cases h
    | some rp =>
      rw [hre] at h
      cases hrec : legacyCompileSubs l with
      | error e => rw [hrec] at h; cases h; exact ih hrec
      | ok rs => rw [hrec] at h; cases h

/-- Counterexample to claim C3 as stated: a document whose `pattern` field
is empty and whose `patterns` list contains one entry with an empty pattern
string does not raise `MissingPatternError` — both runners take the
non-empty-list branch and compile the empty pattern text successfully
(an empty regex is valid and matches everywhere). -/
theorem missing_pattern_counterexample :
    compile_patterns ⟨"", [⟨"x", ""⟩], [], []⟩ = .ok [⟨.eps, ⟨false, true⟩⟩]
    ∧ legacy_compile_patterns ⟨"", [⟨"x", ""⟩], [], []⟩ = .ok [⟨.eps, ⟨true, true⟩⟩]
    ∧ compile_patterns ⟨"", [⟨"x", ""⟩], [], []⟩ ≠ .error .missingPattern := by
  refine ⟨rfl, rfl, ?_⟩
  intro h
  rw [show compile_patterns ⟨"", [⟨"x", ""⟩], [], []⟩ = .ok [⟨.eps, ⟨false, true⟩⟩]
      from rfl] at h
  cases h

/-- Claim C3 amended: `MissingPatternError` is raised exactly when the
`patterns` sequence is empty as a sequence and the `pattern` field is the
empty string — a non-empty `patterns` list whose entries all have empty
pattern text is still compiled (to empty regexes), in both runners. -/
theorem missing_pattern_amended (d : RuleDoc) :
    (compile_patterns d = .error .missingPattern ↔
      d.patterns = [] ∧ d.pattern = "")
    ∧ (legacy_compile_patterns d = .error .missingPattern ↔
      d.patterns = [] ∧ d.pattern = "") := by
  constructor
  · constructor
    · intro h
      unfold compile_patterns at h
      split at h
      · exact absurd h (compileSubsRun_ne_missing d.patterns)
      · split at h
        · unfold compileSingleRun at h
          split at h
          · cases h
          · cases hre : re_compile (pyStrip d.pattern) ⟨false, true⟩ with
            | none => rw [hre] at h; cases h
            | some rp => rw [hre] at h; cases h
        · rename_i h1 h2
          exact ⟨not_ne_iff.mp h1, not_ne_iff.mp h2⟩
    · rintro ⟨h1, h2⟩
      unfold compile_patterns
      rw [h1, h2]
      simp
  · constructor
    · intro h
      unfold legacy_compile_patterns at h
      split at h
      · exact absurd h (legacyCompileSubs_ne_missing d.patterns)
      · split at h
        · cases hre : re_compile d.pattern ⟨true, true⟩ with
          | none => rw [hre] at h; cases h
          | some rp => rw [hre] at h; cases h
        · rename_i h1 h2
          exact ⟨not_ne_iff.mp h1, not_ne_iff.mp h2⟩
    · rintro ⟨h1, h2⟩
      unfold legacy_compile_patterns
      rw [h1, h2]
      simp

/-- Witness for the amended C3: the fully empty document does raise
`MissingPatternError`, and a document with a non-empty single pattern does
not. -/
theorem missing_pattern_amended_witness :
    compile_patterns ⟨"", [], [], []⟩ = .error .missingPattern
    ∧ ¬(compile_patterns ⟨"a", [], [], []⟩ = .error .missingPattern) :=
  ⟨(missing_pattern_amended ⟨"", [], [], []⟩).1.mpr ⟨rfl, rfl⟩,
    fun h => by
      have := (missing_pattern_amended ⟨"a", [], [], []⟩).1.mp h
      exact absurd this.2 (by decide)⟩

/-! ## Claim C4 -/

/-- Dropping the blank lines from a list does not change a `filterMap`
whose function ignores blank lines. -/
theorem filterMap_strip_filter (f : String → Option String)
    (hf : ∀ x, pyStrip x = "" → f x = none) :
    ∀ l : List String, (l.filter (fun x => pyStrip x != "")).filterMap f = l.filterMap f := by
  intro l
  induction l with
  | nil => rfl
  | cons x l ih =>
    by_cases hx : pyStrip x = ""
    · simp [List.filter_cons, hx, List.filterMap_cons, hf x hx, ih]
    · simp [List.filter_cons, hx, List.filterMap_cons, ih]

/-- Dropping the blank lines from a list does not change a fold whose
step function ignores blank lines. -/
theorem foldl_strip_filter {β : Type} (g : β → String → β)
    (hg : ∀ acc x, pyStrip x = "" → g acc x = acc) :
    ∀ (l : List String) (acc : β),
      (l.filter (fun x => pyStrip x != "")).foldl g acc = l.foldl g acc := by
  intro l
  induction l with
  | nil => intro acc; rfl
  | cons x l ih =>
    intro acc
    by_cases hx : pyStrip x = ""
    · simp only [List.filter_cons, hx, List.foldl_cons]
      simp only [bne_self_eq_false, Bool.false_eq_true, if_false, hg acc x hx]
      exact ih acc
    · simp only [List.filter_cons, List.foldl_cons]
      rw [if_pos (by simpa [bne_iff_ne] using hx)]
      simp only [List.foldl_cons]
      exact ih (g acc x)

/-- `run_tests` in scripts/test/run.py ignores blank example lines: the
failure list is unchanged if they are removed. -/
theorem run_tests_filter (ps : List RePattern) (mal ben : List String) :
    run_tests ps (mal.filter (fun l => pyStrip l != ""))
      (ben.filter (fun l => pyStrip l != "")) = run_tests ps mal ben := by
  unfold run_tests
  rw [filterMap_strip_filter _ (fun x hx => by simp [hx]) mal,
      filterMap_strip_filter _ (fun x hx => by simp [hx]) ben]

/-- The counting loops of scripts/run_tests.py ignore blank example lines
entirely: all counters are unchanged if they are removed. -/
theorem legacy_eval_filter (ps : List RePattern) (mal ben : List String) :
    legacy_eval ps (mal.filter (fun l => pyStrip l != ""))
      (ben.filter (fun l => pyStrip l != "")) = legacy_eval ps mal ben := by
  unfold legacy_eval
  rw [foldl_strip_filter _ (fun acc x hx => by simp [hx]) mal,
      foldl_strip_filter _ (fun acc x hx => by simp [hx]) ben]

/-- Counterexample to claim C4 as stated: in scripts/test/run.py the
malicious list `["", "  ", "real-attack"]` with a pattern matching
`real-attack` yields `passed = 3`, `failed = 0` — the two blank examples
are counted in the total and reported as passed, not skipped, because
`test_pattern` computes `total = len(malicious) + len(benign)` before any
blank filtering. -/
theorem blank_lines_counted_counterexample :
    test_pattern "n" ⟨"real", [], ["", "  ", "real-attack"], []⟩ = (3, 0, [])
    ∧ (3 : Nat) ≠ 1 :=
  ⟨rfl, by decide⟩

/-- Claim C4 amended: blank or whitespace-only examples generate no failure
in either runner, and scripts/run_tests.py skips them from all of its test
counts (the list `["", "  ", "real-attack"]` contributes exactly one test
there); but scripts/test/run.py counts every list entry, blank or not, in
its total and therefore in its passed count. -/
theorem blank_lines_amended :
    (∀ (ps : List RePattern) (mal ben : List String),
      run_tests ps (mal.filter (fun l => pyStrip l != ""))
          (ben.filter (fun l => pyStrip l != "")) = run_tests ps mal ben
      ∧ legacy_eval ps (mal.filter (fun l => pyStrip l != ""))
          (ben.filter (fun l => pyStrip l != "")) = legacy_eval ps mal ben)
    ∧ (∀ ps : List RePattern,
        (legacy_eval ps ["", "  ", "real-attack"] []).totalTests = 1)
    ∧ (∀ (name : String) (d : RuleDoc) (ps : List RePattern),
        compile_patterns d = .ok ps →
        (test_pattern name d).1 + (test_pattern name d).2.1 =
          d.malicious.length + d.benign.length) := by
  refine ⟨fun ps mal ben => ⟨run_tests_filter ps mal ben, legacy_eval_filter ps mal ben⟩,
    ?_, ?_⟩
  · intro ps
    have key : legacy_eval ps ["", "  ", "real-attack"] [] =
        legacy_eval ps ["real-attack"] [] := by
      have h := legacy_eval_filter ps ["", "  ", "real-attack"] []
      rw [show (["", "  ", "real-attack"].filter fun l => pyStrip l != "") =
          ["real-attack"] from by decide] at h
      exact h.symm
    rw [key]
    unfold legacy_eval
    simp only [List.foldl]
    by_cases h : (ps.any fun p => reSearch p "real-attack") = true
    · rw [if_neg (show ¬((pyStrip "real-attack" == "") = true) from by decide),
          if_pos h]
    · rw [if_neg (show ¬((pyStrip "real-attack" == "") = true) from by decide),
          if_neg h]
  · intro name d ps h
    unfold test_pattern
    rw [h]
    simp only
    have hlen : ((run_tests ps d.malicious d.benign).map
        (fun f => name ++ ": " ++ f)).length ≤
        d.malicious.length + d.benign.length := by
      rw [List.length_map]
      unfold run_tests
      rw [List.length_append]
      exact Nat.add_le_add (List.length_filterMap_le _ _) (List.length_filterMap_le _ _)
    omega

/-- Witness for the amended C4 at a concrete pattern list and example
lists containing blanks. -/
theorem blank_lines_amended_witness :
    run_tests [⟨.ch 'a', ⟨false, true⟩⟩] ["b"] ["xa"] =
      run_tests [⟨.ch 'a', ⟨false, true⟩⟩] ["", "b", "  "] ["", "xa"]
    ∧ (legacy_eval [⟨.ch 'a', ⟨true, true⟩⟩] ["", "  ", "real-attack"] []).totalTests = 1
    ∧ (test_pattern "n" ⟨"real", [], ["", "  ", "real-attack"], []⟩).1 +
        (test_pattern "n" ⟨"real", [], ["", "  ", "real-attack"], []⟩).2.1 = 3 := by
  refine ⟨?_, blank_lines_amended.2.1 [⟨.ch 'a', ⟨true, true⟩⟩], ?_⟩
  · have h := (blank_lines_amended.1 [⟨.ch 'a', ⟨false, true⟩⟩] ["", "b", "  "] ["", "xa"]).1
    rw [← h]
    rfl
  · exact blank_lines_amended.2.2 "n" ⟨"real", [], ["", "  ", "real-attack"], []⟩
      [⟨.cat (.cat (.cat (.ch 'r') (.ch 'e')) (.ch 'a')) (.ch 'l'), ⟨false, true⟩⟩] rfl

/-! ## Claim C5 -/

/-- Claim C5: `check_format` rejects exactly the patterns whose trimmed
text starts with the inline `(?i)` directive without wrapping the whole
expression as `(?i)( ... )`: the sub-pattern text `(?i)foo|bar` fails
compilation with the flag-scope error, `(?i)(foo|bar)` compiles
successfully, and a pattern whose trimmed text does not start with the
directive is never rejected by this check. -/
theorem check_format_scope
    (name : String) (p : String)
    (hp : pyStartsWith (pyStrip p) "(?i)" = false) :
    compile_patterns ⟨"", [⟨name, "(?i)foo|bar"⟩], [], []⟩ =
      .error (.malformedFlagScope name)
    ∧ (∃ rp : RePattern,
        compile_patterns ⟨"", [⟨name, "(?i)(foo|bar)"⟩], [], []⟩ = .ok [rp]
        ∧ rp.flags = ⟨true, true⟩)
    ∧ check_format p = none := by
  refine ⟨?_, ⟨⟨.alt (.cat (.cat (.ch 'f') (.ch 'o')) (.ch 'o'))
      (.cat (.cat (.ch 'b') (.ch 'a')) (.ch 'r')), ⟨true, true⟩⟩, ?_, rfl⟩, ?_⟩
  · unfold compile_patterns compileSubsRun
    rw [if_pos (show check_format_err (pyStrip "(?i)foo|bar") = true from by decide)]
    simp
  · unfold compile_patterns compileSubsRun
    rw [if_neg (show ¬(check_format_err (pyStrip "(?i)(foo|bar)") = true) from by decide)]
    rfl
  · unfold check_format check_format_err
    rw [if_neg]
    simp [hp]

/-- Witness for C5 at a concrete directive-free pattern. -/
theorem check_format_scope_witness :
    compile_patterns ⟨"", [⟨"n", "(?i)foo|bar"⟩], [], []⟩ =
      .error (.malformedFlagScope "n")
    ∧ check_format "foo|bar" = none :=
  ⟨(check_format_scope "n" "foo|bar" (by decide)).1,
    (check_format_scope "n" "foo|bar" (by decide)).2.2⟩

/-! ## Claim C6 -/

/-- Claim C6: when the `patterns` sequence is non-empty both runners
compile only its entries — the result does not depend on the single
`pattern` field — and the single pattern is compiled only when the
sequence is empty. -/
theorem compile_precedence (d : RuleDoc) :
    (d.patterns ≠ [] →
      compile_patterns d = compileSubsRun d.patterns
      ∧ compile_patterns { d with pattern := "" } = compile_patterns d
      ∧ legacy_compile_patterns d = legacyCompileSubs d.patterns
      ∧ legacy_compile_patterns { d with pattern := "" } = legacy_compile_patterns d)
    ∧ (d.patterns = [] → d.pattern ≠ "" →
      compile_patterns d = compileSingleRun d.pattern) := by
  constructor
  · intro h
    refine ⟨?_, ?_, ?_, ?_⟩
    · unfold compile_patterns
      rw [if_pos h]
    · unfold compile_patterns
      rw [if_pos (show ({ d with pattern := "" } : RuleDoc).patterns ≠ [] from h),
          if_pos h]
    · unfold legacy_compile_patterns
      rw [if_pos h]
    · unfold legacy_compile_patterns
      rw [if_pos (show ({ d with pattern := "" } : RuleDoc).patterns ≠ [] from h),
          if_pos h]
  · intro h1 h2
    unfold compile_patterns
    rw [if_neg (by simpa using h1), if_pos h2]

/-- Witness for C6 at a concrete document carrying both a single pattern
and a sub-pattern list. -/
theorem compile_precedence_witness :
    compile_patterns ⟨"zzz", [⟨"n", "a"⟩], [], []⟩ =
      compileSubsRun [⟨"n", "a"⟩]
    ∧ compile_patterns ⟨"", [⟨"n", "a"⟩], [], []⟩ =
      compile_patterns ⟨"zzz", [⟨"n", "a"⟩], [], []⟩
    ∧ compile_patterns ⟨"b", [], [], []⟩ = compileSingleRun "b" :=
  ⟨((compile_precedence ⟨"zzz", [⟨"n", "a"⟩], [], []⟩).1 (by decide)).1,
    ((compile_precedence ⟨"zzz", [⟨"n", "a"⟩], [], []⟩).1 (by decide)).2.1,
    (compile_precedence ⟨"b", [], [], []⟩).2 rfl (by decide)⟩

/-! ## Claim C10 -/

/-- A string starting with `"- "` is neither empty nor a test-section
header, and its first character is `'-'`. -/
theorem startsWith_dash_facts (s : String) (hd : pyStartsWith s "- " = true) :
    (s == "") = false ∧ (s == "malicious:") = false ∧ (s == "benign:") = false := by
  obtain ⟨t, ht⟩ := List.isPrefixOf_iff_prefix.mp hd
  refine ⟨?_, ?_, ?_⟩
  · rw [beq_eq_false_iff_ne]
    intro h
    rw [h] at ht
    simp at ht
  · rw [beq_eq_false_iff_ne]
    intro h
    rw [h] at ht
    simp at ht
  · rw [beq_eq_false_iff_ne]
    intro h
    rw [h] at ht
    simp at ht

/-- Claim C10: while the current section is the `patterns` list, a line
whose trimmed text starts with `"- "` but whose item does not begin with
`name:` is discarded: the step leaves the whole parser state — document,
open sub-pattern record, flags and buffer — unchanged. -/
theorem patterns_item_without_name_noop (st : PState) (line : String)
    (hcs : st.currentSection = some "patterns")
    (hd : pyStartsWith (pyStrip line) "- " = true)
    (hn : pyStartsWith (pyStrip (pyDrop (pyStrip line) 2)) "name:" = false) :
    step st line = st := by
  obtain ⟨h1, h2, h3⟩ := startsWith_dash_facts (pyStrip line) hd
  simp +decide [step, h1, h2, h3, hcs, hd, hn]

/-- Witness for C10 at a concrete state and line. -/
theorem patterns_item_without_name_noop_witness :
    step ⟨initData, some "patterns", [], none, false, false⟩ "- foo" =
      ⟨initData, some "patterns", [], none, false, false⟩ :=
  patterns_item_without_name_noop ⟨initData, some "patterns", [], none, false, false⟩
    "- foo" rfl (by decide) (by decide)

/-! ## Claim C8 -/

/-- Counterexample to claim C8 as stated: an unknown top-level key does not
always leave the document unchanged.  Inserting the line `unknown: x`
between `description: a` and its continuation line `  b` changes the parsed
description from `a b` to `b`, because the unknown-key line flushes and
clears the pending multi-line accumulator. -/
theorem unknown_key_changes_doc_counterexample :
    parse_yaml_pattern ["description: a", "unknown: x", "  b"] =
      mkData "" "" "b" "" [] [] []
    ∧ parse_yaml_pattern ["description: a", "  b"] =
      mkData "" "" "a b" "" [] [] []
    ∧ parse_yaml_pattern ["description: a", "unknown: x", "  b"] ≠
      parse_yaml_pattern ["description: a", "  b"] := by
  refine ⟨by decide, by decide, by decide⟩

/-- Claim C8 amended: the parser is a total function of the line sequence;
empty input yields the all-default document; and a top-level line with an
unrecognized key assigns no field and changes no section state — its only
effect is the flush of a pending multi-line `description`/`pattern`
accumulator (which is why such a line can still change how continuation
lines are grouped). -/
theorem parser_total_defaults_amended :
    parse_yaml_pattern [] = mkData "" "" "" "" [] [] []
    ∧ (∀ (st : PState) (line : String),
        pyContainsColon line = true →
        pyStartsWith line "  " = false →
        (pyStrip line == "") = false →
        (pyStrip line == "malicious:") = false →
        (pyStrip line == "benign:") = false →
        pyStartsWith (pyStrip line) "- " = false →
        (pyStrip (pyPartitionColon line).1 == "name") = false →
        (pyStrip (pyPartitionColon line).1 == "severity") = false →
        (pyStrip (pyPartitionColon line).1 == "description") = false →
        (pyStrip (pyPartitionColon line).1 == "pattern") = false →
        (pyStrip (pyPartitionColon line).1 == "patterns") = false →
        step st line = flushMid st) := by
  constructor
  · rfl
  · intro st line hc hi h0 hm hb hdash k1 k2 k3 k4 k5
    simp [step, hc, hi, h0, hm, hb, hdash, k1, k2, k3, k4, k5]

/-- Witness for the amended C8: a concrete unknown-key line acting on a
state with a pending description accumulator only flushes it. -/
theorem parser_total_defaults_amended_witness :
    step ⟨initData, some "description", ["a"], none, false, false⟩ "unknown: x" =
      flushMid ⟨initData, some "description", ["a"], none, false, false⟩ :=
  parser_total_defaults_amended.2 ⟨initData, some "description", ["a"], none, false, false⟩
    "unknown: x" (by decide) (by decide) (by decide) (by decide) (by decide)
    (by decide) (by decide) (by decide) (by decide) (by decide) (by decide)

/-! ## Claim C7 -/

/-- `String.append` acts as list append on the underlying data. -/
theorem strData_append (a b : String) : (a ++ b).data = a.data ++ b.data := by
  cases a
  cases b
  rfl

/-- A strip-clean string is a fixed point of `pyStrip`. -/
theorem pyStrip_of_noOuterWs (l : String) (h : noOuterWs l) : pyStrip l = l := by
  obtain ⟨h1, h2⟩ := h
  cases l with
  | mk cs =>
    simp only [pyStrip, pyStripList]
    rw [h1, h2]
    simp

/-- Stripping a two-space-indented strip-clean string recovers the string. -/
theorem pyStrip_two_space (l : String) (h : noOuterWs l) :
    pyStrip ("  " ++ l) = l := by
  obtain ⟨h1, h2⟩ := h
  cases l with
  | mk cs =>
    simp only [pyStrip, pyStripList, strData_append]
    show (⟨((((' ' :: ' ' :: cs).dropWhile wsChar).reverse).dropWhile wsChar).reverse⟩ : String) = _
    rw [show (' ' :: ' ' :: cs).dropWhile wsChar = cs.dropWhile wsChar from by
          simp [List.dropWhile, wsChar]]
    rw [h1, h2]
    simp

/-- An indented line starts with two spaces. -/
theorem startsWith_two_space (l : String) : pyStartsWith ("  " ++ l) "  " = true := by
  cases l with
  | mk cs =>
    simp [pyStartsWith, strData_append, List.isPrefixOf]

/-- An indented line starts with one space. -/
theorem startsWith_one_space (l : String) : pyStartsWith ("  " ++ l) " " = true := by
  cases l with
  | mk cs =>
    simp [pyStartsWith, strData_append, List.isPrefixOf]

/-- Characters of a stripped string come from the original string. -/
theorem mem_pyStripList {x : Char} {cs : List Char} (h : x ∈ pyStripList cs) :
    x ∈ cs := by
  unfold pyStripList at h
  rw [List.mem_reverse] at h
  have h2 : x ∈ ((cs.dropWhile wsChar).reverse) :=
    (List.dropWhile_sublist _).subset h
  rw [List.mem_reverse] at h2
  exact (List.dropWhile_sublist _).subset h2

/-- A continuation line (two-space indented, non-blank, not a section
header) while a `description`/`pattern` section is active outside a
patterns list only appends its stripped content to the accumulator. -/
theorem step_continuation (st : PState) (l : String)
    (hcs : st.currentSection = some "description" ∨ st.currentSection = some "pattern")
    (hpl : st.inPatternsList = false)
    (hw : noOuterWs l)
    (h0 : (l == "") = false)
    (hm : (l == "malicious:") = false)
    (hb : (l == "benign:") = false) :
    step st ("  " ++ l) = { st with multilineValue := st.multilineValue ++ [l] } := by
  have hstrip : pyStrip ("  " ++ l) = l := pyStrip_two_space l hw
  have h2sp := startsWith_two_space l
  have h1sp := startsWith_one_space l
  rcases hcs with hcs | hcs <;>
    simp +decide [step, hstrip, hcs, hpl, h0, hm, hb, h2sp, h1sp]

/-- `setKey` at `name` on the canonical dict shape. -/
theorem setKey_mk_name (n sv ds pt : String) (ps ms bs : List Item) (v : String) :
    setKey (mkData n sv ds pt ps ms bs) "name" (.str v) =
      mkData v sv ds pt ps ms bs := rfl

/-- `setKey` at `severity` on the canonical dict shape. -/
theorem setKey_mk_severity (n sv ds pt : String) (ps ms bs : List Item) (v : String) :
    setKey (mkData n sv ds pt ps ms bs) "severity" (.str v) =
      mkData n v ds pt ps ms bs := rfl

/-- `setKey` at `description` on the canonical dict shape. -/
theorem setKey_mk_description (n sv ds pt : String) (ps ms bs : List Item) (v : String) :
    setKey (mkData n sv ds pt ps ms bs) "description" (.str v) =
      mkData n sv v pt ps ms bs := rfl

/-- `setKey` at `pattern` on the canonical dict shape. -/
theorem setKey_mk_pattern (n sv ds pt : String) (ps ms bs : List Item) (v : String) :
    setKey (mkData n sv ds pt ps ms bs) "pattern" (.str v) =
      mkData n sv ds v ps ms bs := rfl

/-- `appendItem` at `malicious` on the canonical dict shape. -/
theorem appendItem_mk_malicious (n sv ds pt : String) (ps ms bs : List Item) (it : Item) :
    appendItem (mkData n sv ds pt ps ms bs) "malicious" it =
      mkData n sv ds pt ps (ms ++ [it]) bs := rfl

/-- `appendItem` at `benign` on the canonical dict shape. -/
theorem appendItem_mk_benign (n sv ds pt : String) (ps ms bs : List Item) (it : Item) :
    appendItem (mkData n sv ds pt ps ms bs) "benign" it =
      mkData n sv ds pt ps ms (bs ++ [it]) := rfl

/-- `appendItem` at `patterns` on the canonical dict shape. -/
theorem appendItem_mk_patterns (n sv ds pt : String) (ps ms bs : List Item) (it : Item) :
    appendItem (mkData n sv ds pt ps ms bs) "patterns" it =
      mkData n sv ds pt (ps ++ [it]) ms bs := rfl

/-- `flushEnd` on a state with a pending accumulator in the `description`
section assigns the space-joined, trimmed accumulator. -/
theorem flushEnd_desc (d : RuleData) (mv : List String) (h : mv ≠ [])
    (cp : Option (List (String × String))) (b1 b2 : Bool) :
    flushEnd ⟨d, some "description", mv, cp, b1, b2⟩ =
      ⟨setKey d "description" (.str (pyStrip (pyJoin " " mv))),
        some "description", mv, cp, b1, b2⟩ := by
  simp +decide [flushEnd, h]

/-- `flushEnd` on a state with a pending accumulator in the `pattern`
section assigns the flushed pattern value. -/
theorem flushEnd_pat (d : RuleData) (mv : List String) (h : mv ≠ [])
    (cp : Option (List (String × String))) (b1 b2 : Bool) :
    flushEnd ⟨d, some "pattern", mv, cp, b1, b2⟩ =
      ⟨setKey d "pattern" (.str (joinPattern mv)),
        some "pattern", mv, cp, b1, b2⟩ := by
  simp +decide [flushEnd, h]

/-- In scripts/yaml_parser.py a `description` spread over three
continuation lines parses to the space-joined, trimmed string (and
contains no newline when the lines contain none); a `pattern` spread over
two continuation lines parses to the newline-joined, trimmed string; a
single buffered `pattern` line is kept as-is. -/
theorem continuation_joining (l1 l2 l3 p1 p2 : String)
    (hx : ∀ x ∈ [l1, l2, l3, p1, p2], noOuterWs x ∧ (x == "") = false ∧
      (x == "malicious:") = false ∧ (x == "benign:") = false)
    (hnl : '\n' ∉ l1.data ∧ '\n' ∉ l2.data ∧ '\n' ∉ l3.data) :
    (parse_yaml_pattern ["description: >", "  " ++ l1, "  " ++ l2, "  " ++ l3] =
        mkData "" "" (pyStrip (pyJoin " " [l1, l2, l3])) "" [] [] []
      ∧ '\n' ∉ (pyStrip (pyJoin " " [l1, l2, l3])).data)
    ∧ parse_yaml_pattern ["pattern: |", "  " ++ p1, "  " ++ p2] =
        mkData "" "" "" (pyStrip (pyJoin "\n" [p1, p2])) [] [] []
    ∧ parse_yaml_pattern ["pattern: |", "  " ++ p1] =
        mkData "" "" "" p1 [] [] [] := by
  obtain ⟨hw1, h01, hm1, hb1⟩ := hx l1 (by simp)
  obtain ⟨hw2, h02, hm2, hb2⟩ := hx l2 (by simp)
  obtain ⟨hw3, h03, hm3, hb3⟩ := hx l3 (by simp)
  obtain ⟨hq1, h04, hn4, hb4⟩ := hx p1 (by simp)
  obtain ⟨hq2, h05, hn5, hb5⟩ := hx p2 (by simp)
  refine ⟨⟨?_, ?_⟩, ?_, ?_⟩
  · unfold parse_yaml_pattern
    simp only [List.foldl]
    rw [show step initState "description: >" =
        ⟨initData, some "description", [], none, false, false⟩ from by decide]
    rw [step_continuation _ l1 (Or.inl rfl) rfl hw1 h01 hm1 hb1]
    rw [step_continuation _ l2 (Or.inl rfl) rfl hw2 h02 hm2 hb2]
    rw [step_continuation _ l3 (Or.inl rfl) rfl hw3 h03 hm3 hb3]
    show closeCp (flushEnd ⟨initData, some "description", [l1, l2, l3],
      none, false, false⟩).data none = _
    rw [flushEnd_desc initData [l1, l2, l3] (by simp) none false false]
    show setKey initData "description" (.str (pyStrip (pyJoin " " [l1, l2, l3]))) = _
    exact setKey_mk_description "" "" "" "" [] [] [] _
  · intro hmem
    have hmem2 := mem_pyStripList hmem
    rw [show (pyJoin " " [l1, l2, l3]) = l1 ++ " " ++ (l2 ++ " " ++ l3) from rfl] at hmem2
    simp only [strData_append, List.mem_append] at hmem2
    rcases hmem2 with (h | h) | (h | h) | h
    · exact hnl.1 h
    · simp at h
    · exact hnl.2.1 h
    · simp at h
    · exact hnl.2.2 h
  · unfold parse_yaml_pattern
    simp only [List.foldl]
    rw [show step initState "pattern: |" =
        ⟨initData, some "pattern", [], none, false, false⟩ from by decide]
    rw [step_continuation _ p1 (Or.inr rfl) rfl hq1 h04 hn4 hb4]
    rw [step_continuation _ p2 (Or.inr rfl) rfl hq2 h05 hn5 hb5]
    show closeCp (flushEnd ⟨initData, some "pattern", [p1, p2],
      none, false, false⟩).data none = _
    rw [flushEnd_pat initData [p1, p2] (by simp) none false false]
    show setKey initData "pattern" (.str (joinPattern [p1, p2])) = _
    rw [show joinPattern [p1, p2] = pyStrip (pyJoin "\n" [p1, p2]) from rfl]
    exact setKey_mk_pattern "" "" "" "" [] [] [] _
  · unfold parse_yaml_pattern
    simp only [List.foldl]
    rw [show step initState "pattern: |" =
        ⟨initData, some "pattern", [], none, false, false⟩ from by decide]
    rw [step_continuation _ p1 (Or.inr rfl) rfl hq1 h04 hn4 hb4]
    show closeCp (flushEnd ⟨initData, some "pattern", [p1],
      none, false, false⟩).data none = _
    rw [flushEnd_pat initData [p1] (by simp) none false false]
    show setKey initData "pattern" (.str (joinPattern [p1])) = _
    rw [show joinPattern [p1] = p1 from rfl]
    exact setKey_mk_pattern "" "" "" "" [] [] [] _

/-- Concrete instance of `continuation_joining`. -/
theorem continuation_joining_witness :
    parse_yaml_pattern ["description: >", "  aa", "  bb", "  cc"] =
      mkData "" "" (pyStrip (pyJoin " " ["aa", "bb", "cc"])) "" [] [] []
    ∧ parse_yaml_pattern ["pattern: |", "  xx", "  yy"] =
      mkData "" "" "" (pyStrip (pyJoin "\n" ["xx", "yy"])) [] [] []
    ∧ parse_yaml_pattern ["pattern: |", "  xx"] = mkData "" "" "" "xx" [] [] [] := by
  have h := continuation_joining "aa" "bb" "cc" "xx" "yy" (by decide) (by decide)
  exact ⟨h.1.1, h.2.1, h.2.2⟩

/-- A continuation line behaves in the legacy parser of
scripts/run_tests.py exactly as in scripts/yaml_parser.py: it appends its
stripped content to the accumulator. -/
theorem legacy_step_continuation (st : PState) (l : String)
    (hcs : st.currentSection = some "description" ∨ st.currentSection = some "pattern")
    (hpl : st.inPatternsList = false)
    (hw : noOuterWs l)
    (h0 : (l == "") = false)
    (hdash : pyStartsWith l "- " = false) :
    legacy_step st ("  " ++ l) = { st with multilineValue := st.multilineValue ++ [l] } := by
  have hstrip : pyStrip ("  " ++ l) = l := pyStrip_two_space l hw
  have h2sp := startsWith_two_space l
  have h1sp := startsWith_one_space l
  rcases hcs with hcs | hcs <;>
    simp +decide [legacy_step, hstrip, hcs, hpl, h0, hdash, h2sp, h1sp]

/-- The legacy end-of-input flush on a pending `description` accumulator
assigns the newline-joined, trimmed value. -/
theorem legacy_flushEnd_desc (d : RuleData) (mv : List String) (h : mv ≠ [])
    (cp : Option (List (String × String))) (b1 b2 : Bool) :
    legacy_flushEnd ⟨d, some "description", mv, cp, b1, b2⟩ =
      ⟨setKey d "description" (.str (pyStrip (pyJoin "\n" mv))),
        some "description", mv, cp, b1, b2⟩ := by
  simp +decide [legacy_flushEnd, h]

/-- Counterexample to claim C7 as stated: the parser copy in
scripts/run_tests.py (also cited by the claim) never space-joins a
multi-line `description`.  At end of input it newline-joins it
(`description: a` + `  b` parses to `"a\nb"`, which contains a newline
from the joining step), and a mid-file top-level key discards the pending
description accumulator entirely. -/
theorem legacy_description_newline_counterexample :
    legacy_parse_yaml_pattern ["description: a", "  b"] =
      mkData "" "" "a\nb" "" [] [] []
    ∧ '\n' ∈ ("a\nb" : String).data
    ∧ legacy_parse_yaml_pattern ["description: a", "  b", "name: x"] =
      mkData "x" "" "" "" [] [] [] := by
  refine ⟨by decide, by decide, by decide⟩

/-- Claim C7 amended: in scripts/yaml_parser.py multi-line `description`
values are space-joined and trimmed (no newline), multi-line `pattern`
values are newline-joined and trimmed, and a single buffered pattern line
is kept as-is; in the parser copy of scripts/run_tests.py, however, the
end-of-input flush newline-joins every pending value — a multi-line
description there parses newline-joined — and the mid-stream flush assigns
only `pattern`, leaving the document untouched when a description
accumulator is pending. -/
theorem continuation_joining_amended :
    (∀ l1 l2 l3 p1 p2 : String,
      (∀ x ∈ [l1, l2, l3, p1, p2], noOuterWs x ∧ (x == "") = false ∧
        (x == "malicious:") = false ∧ (x == "benign:") = false) →
      ('\n' ∉ l1.data ∧ '\n' ∉ l2.data ∧ '\n' ∉ l3.data) →
      ((parse_yaml_pattern ["description: >", "  " ++ l1, "  " ++ l2, "  " ++ l3] =
          mkData "" "" (pyStrip (pyJoin " " [l1, l2, l3])) "" [] [] []
        ∧ '\n' ∉ (pyStrip (pyJoin " " [l1, l2, l3])).data)
       ∧ parse_yaml_pattern ["pattern: |", "  " ++ p1, "  " ++ p2] =
           mkData "" "" "" (pyStrip (pyJoin "\n" [p1, p2])) [] [] []
       ∧ parse_yaml_pattern ["pattern: |", "  " ++ p1] =
           mkData "" "" "" p1 [] [] []))
    ∧ (∀ l1 l2 : String,
        noOuterWs l1 → noOuterWs l2 →
        (l1 == "") = false → (l2 == "") = false →
        pyStartsWith l1 "- " = false → pyStartsWith l2 "- " = false →
        legacy_parse_yaml_pattern ["description: >", "  " ++ l1, "  " ++ l2] =
          mkData "" "" (pyStrip (pyJoin "\n" [l1, l2])) "" [] [] [])
    ∧ (∀ st : PState, st.currentSection = some "description" →
        (legacy_flushMid st).data = st.data) := by
  refine ⟨fun l1 l2 l3 p1 p2 hx hnl => continuation_joining l1 l2 l3 p1 p2 hx hnl,
    ?_, ?_⟩
  · intro l1 l2 hw1 hw2 h01 h02 hd1 hd2
    unfold legacy_parse_yaml_pattern
    simp only [List.foldl]
    rw [show legacy_step initState "description: >" =
        ⟨initData, some "description", [], none, false, false⟩ from by decide]
    rw [legacy_step_continuation _ l1 (Or.inl rfl) rfl hw1 h01 hd1]
    rw [legacy_step_continuation _ l2 (Or.inl rfl) rfl hw2 h02 hd2]
    show closeCp (legacy_flushEnd ⟨initData, some "description", [l1, l2],
      none, false, false⟩).data none = _
    rw [legacy_flushEnd_desc initData [l1, l2] (by simp) none false false]
    show setKey initData "description" (.str (pyStrip (pyJoin "\n" [l1, l2]))) = _
    exact setKey_mk_description "" "" "" "" [] [] [] _
  · intro st hcs
    unfold legacy_flushMid
    split
    · rw [if_neg (by simp +decide [hcs])]
    · rfl

/-- Witness for the amended C7 at concrete continuation lines and a
concrete state with a pending description. -/
theorem continuation_joining_amended_witness :
    parse_yaml_pattern ["description: >", "  aa", "  bb", "  cc"] =
      mkData "" "" (pyStrip (pyJoin " " ["aa", "bb", "cc"])) "" [] [] []
    ∧ legacy_parse_yaml_pattern ["description: >", "  aa", "  bb"] =
      mkData "" "" (pyStrip (pyJoin "\n" ["aa", "bb"])) "" [] [] []
    ∧ (legacy_flushMid ⟨initData, some "description", ["a"], none, false, false⟩).data =
      initData :=
  ⟨((continuation_joining_amended.1 "aa" "bb" "cc" "x" "y" (by decide) (by decide)).1).1,
    continuation_joining_amended.2.1 "aa" "bb" (by decide) (by decide) (by decide)
      (by decide) (by decide) (by decide),
    continuation_joining_amended.2.2
      ⟨initData, some "description", ["a"], none, false, false⟩ rfl⟩

/-! ## Claim C9 -/

/-- `setField` at `pattern` on a well-shaped record. -/
theorem setField_rec_pattern (a b c v : String) :
    setField [("name", a), ("pattern", b), ("description", c)] "pattern" v =
      [("name", a), ("pattern", v), ("description", c)] := rfl

/-- `setField` at `description` on a well-shaped record. -/
theorem setField_rec_description (a b c v : String) :
    setField [("name", a), ("pattern", b), ("description", c)] "description" v =
      [("name", a), ("pattern", b), ("description", v)] := rfl

/-- A well-shaped record is non-empty. -/
theorem RecShape.not_isEmpty {cp : List (String × String)} (h : RecShape cp) :
    cp.isEmpty = false := by
  obtain ⟨a, b, c, rfl⟩ := h
  rfl

/-- Closing the open sub-pattern record preserves the document shape. -/
theorem closeCp_shape (d : RuleData) (cp? : Option (List (String × String)))
    (hd : DocShape d) (hcp : cpInv cp?) : DocShape (closeCp d cp?) := by
  obtain ⟨n, sv, ds, pt, ps, ms, bs, rfl, hps⟩ := hd
  cases cp? with
  | none => exact ⟨n, sv, ds, pt, ps, ms, bs, rfl, hps⟩
  | some cp =>
    rcases hcp with h | ⟨cp', hcp', hr⟩
    · cases h
    · injection hcp' with he
      subst he
      simp only [closeCp]
      rw [if_neg (by simp [hr.not_isEmpty])]
      rw [appendItem_mk_patterns]
      refine ⟨n, sv, ds, pt, ps ++ [cp], ms, bs, by simp, ?_⟩
      intro x hx
      rcases List.mem_append.mp hx with h | h
      · exact hps x h
      · rw [List.mem_singleton.mp h]
        exact hr

/-- The mid-stream flush preserves the parser invariant. -/
theorem flushMid_shape (st : PState) (h : StShape st) : StShape (flushMid st) := by
  obtain ⟨⟨n, sv, ds, pt, ps, ms, bs, hd, hps⟩, hcp⟩ := h
  unfold flushMid
  split
  · split
    · exact ⟨⟨n, sv, ds, _, ps, ms, bs, by rw [hd, setKey_mk_pattern], hps⟩, hcp⟩
    · split
      · exact ⟨⟨n, sv, _, pt, ps, ms, bs, by rw [hd, setKey_mk_description], hps⟩, hcp⟩
      · exact ⟨⟨n, sv, ds, pt, ps, ms, bs, hd, hps⟩, hcp⟩
  · exact ⟨⟨n, sv, ds, pt, ps, ms, bs, hd, hps⟩, hcp⟩

/-- The mid-stream flush does not touch the non-document, non-buffer
fields of the state. -/
theorem flushMid_rest (st : PState) :
    (flushMid st).currentPattern = st.currentPattern ∧
    (flushMid st).currentSection = st.currentSection ∧
    (flushMid st).inPatternsList = st.inPatternsList ∧
    (flushMid st).inTestList = st.inTestList := by
  unfold flushMid
  split
  · split
    · exact ⟨rfl, rfl, rfl, rfl⟩
    · split
      · exact ⟨rfl, rfl, rfl, rfl⟩
      · exact ⟨rfl, rfl, rfl, rfl⟩
  · exact ⟨rfl, rfl, rfl, rfl⟩

/-- The end-of-input flush preserves the parser invariant. -/
theorem flushEnd_shape (st : PState) (h : StShape st) : StShape (flushEnd st) := by
  obtain ⟨⟨n, sv, ds, pt, ps, ms, bs, hd, hps⟩, hcp⟩ := h
  unfold flushEnd
  split
  · split
    · exact ⟨⟨n, sv, ds, _, ps, ms, bs, by rw [hd, setKey_mk_pattern], hps⟩, hcp⟩
    · split
      · exact ⟨⟨n, sv, _, pt, ps, ms, bs, by rw [hd, setKey_mk_description], hps⟩, hcp⟩
      · exact ⟨⟨n, sv, ds, pt, ps, ms, bs, hd, hps⟩, hcp⟩
  · exact ⟨⟨n, sv, ds, pt, ps, ms, bs, hd, hps⟩, hcp⟩

/-- The end-of-input flush does not touch the open sub-pattern record. -/
theorem flushEnd_cp (st : PState) :
    (flushEnd st).currentPattern = st.currentPattern := by
  unfold flushEnd
  split
  · split
    · rfl
    · split
      · rfl
      · rfl
  · rfl

/-- Writing a string value at one of the four string-valued keys preserves
the document shape. -/
theorem DocShape.setStr (d : RuleData) (h : DocShape d) (k : String)
    (hk : k = "name" ∨ k = "severity" ∨ k = "description" ∨ k = "pattern")
    (v : String) : DocShape (setKey d k (.str v)) := by
  obtain ⟨n, sv, ds, pt, ps, ms, bs, rfl, hps⟩ := h
  rcases hk with rfl | rfl | rfl | rfl
  · rw [setKey_mk_name]
    exact ⟨v, sv, ds, pt, ps, ms, bs, rfl, hps⟩
  · rw [setKey_mk_severity]
    exact ⟨n, v, ds, pt, ps, ms, bs, rfl, hps⟩
  · rw [setKey_mk_description]
    exact ⟨n, sv, v, pt, ps, ms, bs, rfl, hps⟩
  · rw [setKey_mk_pattern]
    exact ⟨n, sv, ds, v, ps, ms, bs, rfl, hps⟩

/-- Appending a string example to one of the two example lists preserves
the document shape. -/
theorem DocShape.appendStr (d : RuleData) (h : DocShape d) (k : String)
    (hk : k = "malicious" ∨ k = "benign") (x : String) :
    DocShape (appendItem d k (.str x)) := by
  obtain ⟨n, sv, ds, pt, ps, ms, bs, rfl, hps⟩ := h
  rcases hk with rfl | rfl
  · rw [appendItem_mk_malicious]
    exact ⟨n, sv, ds, pt, ps, ms ++ [x], bs, by simp, hps⟩
  · rw [appendItem_mk_benign]
    exact ⟨n, sv, ds, pt, ps, ms, bs ++ [x], by simp, hps⟩

/-- One parser step preserves the parser invariant. -/
theorem stepShape (st : PState) (l : String) (h : StShape st) :
    StShape (step st l) := by
  obtain ⟨hdoc, hcp⟩ := h
  simp only [step]
  split
  · exact ⟨hdoc, hcp⟩
  · split
    · -- malicious:/benign: header
      have h1 := flushMid_shape st ⟨hdoc, hcp⟩
      exact ⟨h1.1, h1.2⟩
    · split
      · -- list item in a test section
        rename_i hc
        have hcs : st.currentSection = some "malicious" ∨
            st.currentSection = some "benign" := by
          simp only [Bool.and_eq_true, Bool.or_eq_true, beq_iff_eq] at hc
          exact hc.2
        refine ⟨DocShape.appendStr st.data hdoc _ ?_ _, hcp⟩
        rcases hcs with hcs | hcs <;> simp [hcs]
      · split
        · -- list item in the patterns section
          split
          · -- a new `- name:` item
            refine ⟨closeCp_shape st.data st.currentPattern hdoc hcp,
              Or.inr ⟨_, rfl, ?_⟩⟩
            exact ⟨_, _, _, rfl⟩
          · exact ⟨hdoc, hcp⟩
        · split
          · -- top-level key/value line
            have h1 := flushMid_shape st ⟨hdoc, hcp⟩
            split
            · -- name/severity
              rename_i hk
              refine ⟨DocShape.setStr _ h1.1 _ ?_ _, h1.2⟩
              simp only [Bool.or_eq_true, beq_iff_eq] at hk
              rcases hk with hk | hk
              · exact Or.inl hk
              · exact Or.inr (Or.inl hk)
            · split
              · exact ⟨h1.1, h1.2⟩
              · split
                · exact ⟨h1.1, h1.2⟩
                · exact ⟨h1.1, h1.2⟩
          · split
            · -- indented sub-pattern field line
              split
              · -- an open record exists
                rename_i cp heq
                have hr : RecShape cp := by
                  rcases hcp with h0 | ⟨cp2, hcp2, hr⟩
                  · rw [h0] at heq
                    cases heq
                  · rw [hcp2] at heq
                    injection heq with he
                    rw [he] at hr
                    exact hr
                obtain ⟨a, b, c, hcp3⟩ := hr
                split
                · split
                  · refine ⟨hdoc, Or.inr ⟨_, rfl, ?_⟩⟩
                    rw [hcp3, setField_rec_pattern]
                    exact ⟨a, _, c, rfl⟩
                  · split
                    · refine ⟨hdoc, Or.inr ⟨_, rfl, ?_⟩⟩
                      rw [hcp3, setField_rec_description]
                      exact ⟨a, b, _, rfl⟩
                    · exact ⟨hdoc, hcp⟩
                · exact ⟨hdoc, hcp⟩
              · exact ⟨hdoc, hcp⟩
            · split
              · -- continuation line
                exact ⟨hdoc, hcp⟩
              · exact ⟨hdoc, hcp⟩

/-- Claim C9: for every input the parser returns a dictionary with exactly
the seven fields `name`, `severity`, `description`, `pattern`, `patterns`,
`malicious`, `benign` — strings for the first four, lists for the last
three — where every example is a string and every `patterns` entry is a
record with exactly the string fields `name`, `pattern`, `description`. -/
theorem parser_output_shape (lines : List String) :
    DocShape (parse_yaml_pattern lines) := by
  have hfold : ∀ (ls : List String) (st : PState), StShape st →
      StShape (ls.foldl step st) := by
    intro ls
    induction ls with
    | nil => intro st h; exact h
    | cons x ls ih =>
      intro st h
      exact ih _ (stepShape st x h)
  have h0 : StShape initState :=
    ⟨⟨"", "", "", "", [], [], [], rfl, by simp⟩, Or.inl rfl⟩
  have h1 := flushEnd_shape _ (hfold lines initState h0)
  unfold parse_yaml_pattern
  exact closeCp_shape _ _ h1.1 h1.2
